import Mathlib

/-!
Verification of the OneLifeTime life-expectancy projection and countdown engine
(`OneLifeTime.py`).

Time model: the application works with timezone-aware Python `datetime` values.
All instants appearing in one calculation share a single fixed UTC offset, so
wall-clock arithmetic coincides with absolute-time arithmetic; we therefore
model an instant as a proleptic-Gregorian civil datetime (year, month, day,
seconds-of-day as an exact rational, which subsumes Python's microsecond
resolution) and measure absolute time by an epoch-seconds function.

Python semantics embedded here:
  * `relativedelta(years=n)` addition replaces the year and clamps the day of
    month to the length of the target month (only Feb 29 is ever clamped);
  * `timedelta(days=x)` addition adds a flat duration of `x * 86400` seconds;
  * `int(x)` on a float truncates toward zero;
  * subtraction of aware datetimes followed by `.total_seconds()` yields the
    exact difference of the two instants in seconds (rational in our model).
-/

namespace OneLifeTime

/-- Gregorian leap-year test (as in Python's `calendar.isleap`). -/
def isLeap (y : ℤ) : Bool := (y % 4 == 0 && y % 100 != 0) || (y % 400 == 0)

/-- Length of month `m` of year `y` (as in Python's `calendar.monthrange`). -/
def daysInMonth (y : ℤ) (m : ℕ) : ℕ :=
  if m = 2 then (if isLeap y then 29 else 28)
  else if m = 4 ∨ m = 6 ∨ m = 9 ∨ m = 11 then 30
  else 31

/-- Number of Gregorian leap years `k` with `0 ≤ k < y` (proleptic; year 0 is
a leap year).  `/` on `ℤ` is Euclidean division, i.e. floor division here. -/
def leapsBefore (y : ℤ) : ℤ := (y - 1) / 4 - (y - 1) / 100 + (y - 1) / 400 + 1

/-- Cumulative day count of the months strictly before month `m` in a common
year (January = month 1). -/
def monthOffset (m : ℕ) : ℤ :=
  if m ≤ 1 then 0 else if m = 2 then 31 else if m = 3 then 59 else if m = 4 then 90
  else if m = 5 then 120 else if m = 6 then 151 else if m = 7 then 181
  else if m = 8 then 212 else if m = 9 then 243 else if m = 10 then 273
  else if m = 11 then 304 else 334

/-- Extra day contributed by February 29 to the offsets of months March
onwards in a leap year. -/
def leapAdj (y : ℤ) (m : ℕ) : ℤ := if 3 ≤ m ∧ isLeap y then 1 else 0

/-- Days before month `m` of year `y`. -/
def daysBeforeMonth (y : ℤ) (m : ℕ) : ℤ := monthOffset m + leapAdj y m

/-- Day number of the civil date `y-m-d` counted from 0000-01-01 (day 0),
proleptic Gregorian. -/
def daysFromCivil (y : ℤ) (m d : ℕ) : ℤ :=
  365 * y + leapsBefore y + daysBeforeMonth y m + ((d : ℤ) - 1)

/-- A timezone-resolved civil instant: date plus (rational) seconds of day.
This models a Python timezone-aware `datetime` under a fixed UTC offset. -/
structure DateTime where
  year : ℤ
  month : ℕ
  day : ℕ
  secOfDay : ℚ
deriving DecidableEq

/-- Well-formedness of a `DateTime`, matching the invariants of Python's
`datetime` (`MINYEAR = 1`, valid month/day, sub-day time of day). -/
def DateTime.Valid (dt : DateTime) : Prop :=
  1 ≤ dt.year ∧ 1 ≤ dt.month ∧ dt.month ≤ 12 ∧ 1 ≤ dt.day ∧
  dt.day ≤ daysInMonth dt.year dt.month ∧ 0 ≤ dt.secOfDay ∧ dt.secOfDay < 86400

instance (dt : DateTime) : Decidable dt.Valid := by
  unfold DateTime.Valid
  infer_instance

/-- Absolute time of an instant, in seconds from 0000-01-01T00:00:00.
Differences of this function model `(a - b).total_seconds()`. -/
def toEpochSecs (dt : DateTime) : ℚ :=
  ((daysFromCivil dt.year dt.month dt.day : ℤ) : ℚ) * 86400 + dt.secOfDay

/-- `dt + relativedelta(years=n)`: calendar-aware year addition.  The year is
replaced and the day of month is clamped to the length of the target month
(`dateutil.relativedelta` semantics). -/
def addYears (dt : DateTime) (n : ℤ) : DateTime :=
  { dt with year := dt.year + n, day := min dt.day (daysInMonth (dt.year + n) dt.month) }

/-- Python's `int(x)` on a real value: truncation toward zero. -/
def truncRat (q : ℚ) : ℤ := if q < 0 then ⌈q⌉ else ⌊q⌋

/-- `DAYS_IN_YEAR_AVG = 365.25` from the source (exactly 1461/4). -/
def DAYS_IN_YEAR_AVG : ℚ := 1461 / 4

/-- Gym-tenure choices offered by the `gym_since` selectbox. -/
inductive GymTenure
  | lessThanYear
  | oneToThree
  | moreThanThree
deriving DecidableEq, Fintype

/-- Smoking-tenure choices offered by the `smoke_since` selectbox. -/
inductive SmokeTenure
  | lessThanYear
  | oneToFive
  | fiveToTen
  | moreThanTen
deriving DecidableEq, Fintype

/-- The `life_expectancy_adjustment` accumulation (source lines 207-231):
start at 0, add the gym bonus, subtract the smoking penalty, subtract the
cancer penalty.  `none` models answering "No" to the gym/smoking question;
the final `else` branches of the source if-chains are the catch-all cases. -/
def life_expectancy_adjustment (gym : Option GymTenure) (smoke : Option SmokeTenure)
    (cancer : Bool) : ℤ :=
  let a : ℤ := 0
  let a : ℤ :=
    match gym with
    | none => a
    | some g =>
      if g = GymTenure.lessThanYear then a + 1
      else if g = GymTenure.oneToThree then a + 4
      else a + 7
  let a : ℤ :=
    match smoke with
    | none => a
    | some s =>
      if s = SmokeTenure.lessThanYear then a - 1
      else if s = SmokeTenure.oneToFive then a - 3
      else if s = SmokeTenure.fiveToTen then a - 5
      else a - 10
  if cancer then a - 8 else a

/-- `effective_life_expectancy` (source lines 233-236): base plus adjustment,
floored at 0.1 years. -/
def effective_life_expectancy (base : ℚ) (adj : ℤ) : ℚ :=
  let e := base + (adj : ℚ)
  if e < 1 / 10 then 1 / 10 else e

/-- `projected_death_datetime` (source lines 241-247), represented by its
absolute time: split the effective life expectancy with `int(...)`, add the
whole years calendar-aware, then add the fractional remainder times 365.25 as
a flat number of days (`timedelta`). -/
def projected_death_epoch (birth : DateTime) (eff : ℚ) : ℚ :=
  let years_component : ℤ := truncRat eff
  let days_component : ℚ := (eff - (years_component : ℚ)) * DAYS_IN_YEAR_AVG
  toEpochSecs (addYears birth years_component) + days_component * 86400

/-- `seconds_lived` (source line 250): `int((now - birth).total_seconds())`. -/
def seconds_lived (birth now : DateTime) : ℤ :=
  truncRat (toEpochSecs now - toEpochSecs birth)

/-- `seconds_left` (source lines 251-255): truncated seconds from `now` to the
projected death instant, set to 0 when negative. -/
def seconds_left (birth now : DateTime) (eff : ℚ) : ℤ :=
  let s := truncRat (projected_death_epoch birth eff - toEpochSecs now)
  if s < 0 then 0 else s

/-- Per-country effective life expectancy from `generate_projection_table_html`
(source lines 322-323): the country's base figure plus the primary person's
adjustment, floored at 0.1. -/
def current_le (countryBase : ℚ) (adj : ℤ) : ℚ :=
  let e := countryBase + (adj : ℚ)
  if e < 1 / 10 then 1 / 10 else e

/-- `projected_dt_country` (source lines 326-332), represented by its absolute
time. -/
def projected_dt_country_epoch (birth : DateTime) (le : ℚ) : ℚ :=
  let years_part : ℤ := truncRat le
  let days_part : ℚ := (le - (years_part : ℚ)) * DAYS_IN_YEAR_AVG
  toEpochSecs (addYears birth years_part) + days_part * 86400

/-- `seconds_left_country` (source lines 335-336). -/
def seconds_left_country (birth now : DateTime) (countryBase : ℚ) (adj : ℤ) : ℤ :=
  let s := truncRat (projected_dt_country_epoch birth (current_le countryBase adj) - toEpochSecs now)
  if s < 0 then 0 else s

/-- One tick of a countdown cell, from the embedded JavaScript
(`countG--; if (countG < 0) countG = 0;`, and identically `e.cnt--` for table
rows): decrement, then clamp at 0. -/
def tick (c : ℤ) : ℤ :=
  let c' := c - 1
  if c' < 0 then 0 else c'

/-- `n` successive ticks of one countdown cell. -/
def ticks : ℕ → ℤ → ℤ
  | 0, c => c
  | n + 1, c => ticks n (tick c)

/-- State of one projection table's countdown machinery: whether its (single)
`setInterval` handle is still scheduled, and the `cnt` values of its row
entries. -/
structure TableState where
  active : Bool
  entries : List ℤ
deriving DecidableEq

/-- One firing of a table's shared interval (source lines 395-407): every
entry is decremented and clamped; if any entry's display element is absent,
`clearInterval` cancels the table's single shared schedule.  `present i`
tells whether row `i`'s element is still in the document. -/
def tableStep (present : ℕ → Bool) (t : TableState) : TableState :=
  if t.active then
    { active := (List.range t.entries.length).all present,
      entries := t.entries.map tick }
  else t

/-- The whole countdown machinery of one rendered page: the primary counter
(`window.globalCountdownInterval` plus `countG`) and the two projection
tables (`window.projectionInterval_top_countries` / `_bottom_countries`). -/
structure CountdownSystem where
  globalActive : Bool
  globalCount : ℤ
  top : TableState
  bottom : TableState
deriving DecidableEq

/-- One firing of the primary counter's interval (source lines 287-297):
decrement and clamp `countG`; if the display element is gone, clear the
interval. -/
def stepGlobal (present : Bool) (s : CountdownSystem) : CountdownSystem :=
  if s.globalActive then
    { s with globalCount := tick s.globalCount, globalActive := present }
  else s

/-- One firing of the top table's interval. -/
def stepTop (present : ℕ → Bool) (s : CountdownSystem) : CountdownSystem :=
  { s with top := tableStep present s.top }

/-- One firing of the bottom table's interval. -/
def stepBottom (present : ℕ → Bool) (s : CountdownSystem) : CountdownSystem :=
  { s with bottom := tableStep present s.bottom }

/-- The death-instant formula exactly as the specification words it: the birth
instant plus `⌊effectiveYears⌋` whole calendar years, then
`frac(effectiveYears) * 365.25` days as a flat duration. -/
def deathInstant_spec (birth : DateTime) (eff : ℚ) : ℚ :=
  toEpochSecs (addYears birth ⌊eff⌋) + (eff - (⌊eff⌋ : ℚ)) * (1461 / 4) * 86400

/-- The lifestyle-adjustment table exactly as the specification words it:
three independent, strictly additive contributions. -/
def adjustment_spec (gym : Option GymTenure) (smoke : Option SmokeTenure)
    (cancer : Bool) : ℤ :=
  (match gym with
   | none => 0
   | some GymTenure.lessThanYear => 1
   | some GymTenure.oneToThree => 4
   | some GymTenure.moreThanThree => 7) +
  (match smoke with
   | none => 0
   | some SmokeTenure.lessThanYear => -1
   | some SmokeTenure.oneToFive => -3
   | some SmokeTenure.fiveToTen => -5
   | some SmokeTenure.moreThanTen => -10) +
  (if cancer then -8 else 0)

/- Sanity checks of the calendar model against known day numbers. -/

theorem daysFromCivil_unix_epoch : daysFromCivil 1970 1 1 = 719528 := by decide

theorem daysFromCivil_leap_feb :
    daysFromCivil 2000 3 1 - daysFromCivil 2000 2 28 = 2 ∧
    daysFromCivil 1900 3 1 - daysFromCivil 1900 2 28 = 1 := by decide

theorem daysFromCivil_new_year :
    daysFromCivil 2000 1 1 - daysFromCivil 1999 12 31 = 1 := by decide

/- Helper lemmas about the calendar model. -/

theorem leapsBefore_mono {y z : ℤ} (h : y ≤ z) : leapsBefore y ≤ leapsBefore z := by
  unfold leapsBefore
  omega

theorem daysInMonth_le_succ (y y' : ℤ) (m : ℕ) :
    daysInMonth y m ≤ daysInMonth y' m + 1 := by
  unfold daysInMonth
  split_ifs <;> omega

theorem daysBeforeMonth_le_succ (y y' : ℤ) (m : ℕ) :
    daysBeforeMonth y m ≤ daysBeforeMonth y' m + 1 := by
  unfold daysBeforeMonth leapAdj
  split_ifs <;> omega

theorem daysFromCivil_addYears_lt (dt : DateTime) (n k : ℤ) (hk : 1 ≤ k) :
    daysFromCivil (addYears dt n).year (addYears dt n).month (addYears dt n).day <
      daysFromCivil (addYears dt (n + k)).year (addYears dt (n + k)).month
        (addYears dt (n + k)).day := by
  have h1 : leapsBefore (dt.year + n) ≤ leapsBefore (dt.year + (n + k)) :=
    leapsBefore_mono (by omega)
  have h2 : daysBeforeMonth (dt.year + n) dt.month ≤
      daysBeforeMonth (dt.year + (n + k)) dt.month + 1 := daysBeforeMonth_le_succ _ _ _
  have h3 : daysInMonth (dt.year + n) dt.month ≤
      daysInMonth (dt.year + (n + k)) dt.month + 1 := daysInMonth_le_succ _ _ _
  simp only [addYears, daysFromCivil]
  omega

theorem daysFromCivil_addYears_ge (dt : DateTime) (n k : ℤ) (hk : 1 ≤ k) :
    daysFromCivil (addYears dt n).year (addYears dt n).month (addYears dt n).day + 363 ≤
      daysFromCivil (addYears dt (n + k)).year (addYears dt (n + k)).month
        (addYears dt (n + k)).day := by
  have h1 : leapsBefore (dt.year + n) ≤ leapsBefore (dt.year + (n + k)) :=
    leapsBefore_mono (by omega)
  have h2 : daysBeforeMonth (dt.year + n) dt.month ≤
      daysBeforeMonth (dt.year + (n + k)) dt.month + 1 := daysBeforeMonth_le_succ _ _ _
  have h3 : daysInMonth (dt.year + n) dt.month ≤
      daysInMonth (dt.year + (n + k)) dt.month + 1 := daysInMonth_le_succ _ _ _
  simp only [addYears, daysFromCivil]
  omega

theorem epoch_addYears_lt (dt : DateTime) (n k : ℤ) (hk : 1 ≤ k) :
    toEpochSecs (addYears dt n) < toEpochSecs (addYears dt (n + k)) := by
  have h := daysFromCivil_addYears_lt dt n k hk
  have hcast :
      ((daysFromCivil (addYears dt n).year (addYears dt n).month (addYears dt n).day : ℤ) : ℚ) <
        ((daysFromCivil (addYears dt (n + k)).year (addYears dt (n + k)).month
          (addYears dt (n + k)).day : ℤ) : ℚ) := by exact_mod_cast h
  have hsec : (addYears dt n).secOfDay = (addYears dt (n + k)).secOfDay := rfl
  unfold toEpochSecs
  rw [← hsec]
  linarith

theorem epoch_addYears_ge (dt : DateTime) (n k : ℤ) (hk : 1 ≤ k) :
    toEpochSecs (addYears dt n) + 363 * 86400 ≤ toEpochSecs (addYears dt (n + k)) := by
  have h := daysFromCivil_addYears_ge dt n k hk
  have hcast :
      ((daysFromCivil (addYears dt n).year (addYears dt n).month (addYears dt n).day : ℤ) : ℚ) +
        363 ≤
      ((daysFromCivil (addYears dt (n + k)).year (addYears dt (n + k)).month
        (addYears dt (n + k)).day : ℤ) : ℚ) := by exact_mod_cast h
  have hsec : (addYears dt n).secOfDay = (addYears dt (n + k)).secOfDay := rfl
  unfold toEpochSecs
  rw [← hsec]
  linarith

theorem epoch_addYears_zero (dt : DateTime) (h : dt.day ≤ daysInMonth dt.year dt.month) :
    toEpochSecs (addYears dt 0) = toEpochSecs dt := by
  simp only [toEpochSecs, addYears, add_zero, min_eq_left h]

theorem effective_life_expectancy_ge (base : ℚ) (adj : ℤ) :
    1 / 10 ≤ effective_life_expectancy base adj := by
  unfold effective_life_expectancy
  dsimp only
  split
  · exact le_refl _
  · next h => linarith [not_lt.mp h]

theorem adjustment_eq_spec :
    ∀ (g : Option GymTenure) (s : Option SmokeTenure) (c : Bool),
      life_expectancy_adjustment g s c = adjustment_spec g s c := by decide

theorem projected_death_add_int (birth : DateTime) (e : ℚ) (k : ℤ)
    (he : 0 ≤ e) (hk : 1 ≤ k) :
    projected_death_epoch birth e < projected_death_epoch birth (e + (k : ℚ)) := by
  have hek : (0 : ℚ) ≤ e + (k : ℚ) := by
    have : (1 : ℚ) ≤ (k : ℚ) := by exact_mod_cast hk
    linarith
  simp only [projected_death_epoch, truncRat, DAYS_IN_YEAR_AVG]
  rw [if_neg (not_lt.mpr he), if_neg (not_lt.mpr hek), Int.floor_add_int]
  have hep := epoch_addYears_lt birth ⌊e⌋ k hk
  push_cast
  linarith

theorem projected_death_lt_of_floor_lt (birth : DateTime) (e : ℚ) (he : 1 / 10 < e) :
    projected_death_epoch birth (1 / 10) < projected_death_epoch birth e := by
  have he0 : (0 : ℚ) ≤ e := by linarith
  simp only [projected_death_epoch, truncRat, DAYS_IN_YEAR_AVG]
  rw [if_neg (not_lt.mpr he0), if_neg (show ¬ (1 / 10 : ℚ) < 0 by norm_num)]
  have hf0 : ⌊(1 / 10 : ℚ)⌋ = 0 := by norm_num
  rw [hf0]
  have hfl : 0 ≤ ⌊e⌋ := Int.floor_nonneg.mpr he0
  rcases eq_or_lt_of_le hfl with h0 | h1
  · rw [← h0]
    push_cast
    linarith
  · have hep := epoch_addYears_ge birth 0 ⌊e⌋ h1
    rw [zero_add] at hep
    have hfr : (0 : ℚ) ≤ e - (⌊e⌋ : ℚ) := by linarith [Int.floor_le e]
    push_cast
    linarith

/- Claim theorems. -/

/-- C1: for every birth instant and every `effectiveYears ≥ 0.1`, the projected
death instant equals the birth instant plus `⌊effectiveYears⌋` whole years added
calendar-aware, followed by `frac(effectiveYears) * 365.25` days added as a flat
duration, in exactly that order. -/
theorem projector_splits_years_then_flat_days (birth : DateTime) (eff : ℚ)
    (h : 1 / 10 ≤ eff) :
    projected_death_epoch birth eff = deathInstant_spec birth eff := by
  have h0 : ¬ eff < 0 := by linarith
  simp only [projected_death_epoch, truncRat, DAYS_IN_YEAR_AVG, deathInstant_spec]
  rw [if_neg h0]

theorem projector_splits_years_then_flat_days_witness :
    projected_death_epoch (DateTime.mk 1990 1 1 0) (428 / 5) =
      deathInstant_spec (DateTime.mk 1990 1 1 0) (428 / 5) :=
  projector_splits_years_then_flat_days (DateTime.mk 1990 1 1 0) (428 / 5) (by norm_num)

/-- C2: after `n` one-second ticks from a seed value `v ≥ 0`, the countdown
cell's value is `max 0 (v - n)`; in particular it never becomes negative and
stays 0 once it reaches 0. -/
theorem countdown_value_after_ticks (v : ℤ) (n : ℕ) (h : 0 ≤ v) :
    ticks n v = max 0 (v - (n : ℤ)) := by
  induction n generalizing v with
  | zero =>
    simp only [ticks, Nat.cast_zero, sub_zero]
    omega
  | succ n ih =>
    have h1 : ticks (n + 1) v = ticks n (tick v) := rfl
    have h2 : tick v = max 0 (v - 1) := by
      unfold tick
      dsimp only
      split <;> omega
    rw [h1, h2, ih (max 0 (v - 1)) (le_max_left _ _)]
    push_cast
    omega

theorem countdown_value_after_ticks_witness :
    ticks 5 (3 : ℤ) = max 0 ((3 : ℤ) - ((5 : ℕ) : ℤ)) :=
  countdown_value_after_ticks 3 5 (by decide)

/-- C3: `seconds_left` equals the floor of the seconds from `now` to the
projected death instant, clamped to a minimum of 0; when the projected death
instant precedes `now` the result is exactly 0 and no error is raised. -/
theorem seconds_left_is_clamped_floor (birth now : DateTime) (eff : ℚ)
    (h : 1 / 10 ≤ eff) :
    seconds_left birth now eff =
      max 0 ⌊projected_death_epoch birth eff - toEpochSecs now⌋ := by
  simp only [seconds_left, truncRat]
  set q := projected_death_epoch birth eff - toEpochSecs now with hq
  rcases lt_or_le q 0 with hlt | hle
  · rw [if_pos hlt]
    have hceil : ⌈q⌉ ≤ 0 := Int.ceil_le.mpr (by exact_mod_cast hlt.le)
    have hfl : ⌊q⌋ ≤ 0 := le_trans (Int.floor_le_ceil q) hceil
    split <;> omega
  · rw [if_neg (not_lt.mpr hle)]
    have hfl : 0 ≤ ⌊q⌋ := Int.floor_nonneg.mpr hle
    rw [if_neg (by omega)]
    omega

theorem seconds_left_is_clamped_floor_witness :
    seconds_left (DateTime.mk 2000 1 1 0) (DateTime.mk 2000 1 1 0) (1 / 10) =
      max 0 ⌊projected_death_epoch (DateTime.mk 2000 1 1 0) (1 / 10) -
        toEpochSecs (DateTime.mk 2000 1 1 0)⌋ :=
  seconds_left_is_clamped_floor (DateTime.mk 2000 1 1 0) (DateTime.mk 2000 1 1 0)
    (1 / 10) (by norm_num)

/-- C4: the adjuster returns `base` plus the sum of the three independent
lifestyle deltas of the specification's table, clamped to a minimum of 0.1, and
with all factors absent the output equals the input subject to the 0.1 floor. -/
theorem adjuster_adds_deltas_and_clamps (base : ℚ) (g : Option GymTenure)
    (s : Option SmokeTenure) (c : Bool) (hbase : 0 ≤ base) :
    effective_life_expectancy base (life_expectancy_adjustment g s c) =
      max (base + (adjustment_spec g s c : ℚ)) (1 / 10) ∧
    effective_life_expectancy base (life_expectancy_adjustment none none false) =
      max base (1 / 10) := by
  constructor
  · rw [adjustment_eq_spec]
    unfold effective_life_expectancy
    dsimp only
    split
    · next hlt => exact (max_eq_right (le_of_lt hlt)).symm
    · next hge => exact (max_eq_left (not_lt.mp hge)).symm
  · have hadj : life_expectancy_adjustment none none false = 0 := by decide
    rw [hadj]
    unfold effective_life_expectancy
    dsimp only
    rw [Int.cast_zero, add_zero]
    split
    · next hlt => exact (max_eq_right (le_of_lt hlt)).symm
    · next hge => exact (max_eq_left (not_lt.mp hge)).symm

theorem adjuster_adds_deltas_and_clamps_witness :
    effective_life_expectancy (393 / 5)
        (life_expectancy_adjustment (some GymTenure.moreThanThree) none false) =
      max ((393 / 5 : ℚ) +
        (adjustment_spec (some GymTenure.moreThanThree) none false : ℚ)) (1 / 10) ∧
    effective_life_expectancy (393 / 5) (life_expectancy_adjustment none none false) =
      max (393 / 5 : ℚ) (1 / 10) :=
  adjuster_adds_deltas_and_clamps (393 / 5) (some GymTenure.moreThanThree) none false
    (by norm_num)

/-- C5 counterexample: with `now` half a second before `birth`, the code's
`int(...)` truncation yields 0, not the floor −1, so `seconds_lived` is not
the floor of the elapsed seconds when `now` precedes `birth`. -/
theorem seconds_lived_not_floor_before_birth :
    seconds_lived (DateTime.mk 2000 1 1 0) (DateTime.mk 1999 12 31 (172799 / 2)) ≠
      ⌊toEpochSecs (DateTime.mk 1999 12 31 (172799 / 2)) -
        toEpochSecs (DateTime.mk 2000 1 1 0)⌋ := by
  have hb : daysFromCivil 2000 1 1 = 730485 := by decide
  have hn : daysFromCivil 1999 12 31 = 730484 := by decide
  simp only [seconds_lived, truncRat, toEpochSecs, hb, hn]
  norm_num
  have hc : ⌈(-(1 / 2) : ℚ)⌉ = 0 := by norm_num
  rw [hc]
  decide

/-- C5 (amended): `seconds_lived` is the elapsed seconds truncated toward
zero; it equals the floor whenever `now` is at or after `birth`, and the
ceiling when `now` precedes `birth`. -/
theorem seconds_lived_trunc_toward_zero (birth now : DateTime) :
    (toEpochSecs birth ≤ toEpochSecs now →
      seconds_lived birth now = ⌊toEpochSecs now - toEpochSecs birth⌋) ∧
    (toEpochSecs now < toEpochSecs birth →
      seconds_lived birth now = ⌈toEpochSecs now - toEpochSecs birth⌉) := by
  unfold seconds_lived truncRat
  constructor
  · intro h
    rw [if_neg (by linarith : ¬ toEpochSecs now - toEpochSecs birth < 0)]
  · intro h
    rw [if_pos (by linarith : toEpochSecs now - toEpochSecs birth < 0)]

theorem seconds_lived_trunc_toward_zero_witness :
    seconds_lived (DateTime.mk 2000 1 1 0) (DateTime.mk 2000 1 1 0) =
      ⌊toEpochSecs (DateTime.mk 2000 1 1 0) - toEpochSecs (DateTime.mk 2000 1 1 0)⌋ :=
  (seconds_lived_trunc_toward_zero (DateTime.mk 2000 1 1 0) (DateTime.mk 2000 1 1 0)).1
    (le_refl _)

/-- C7 counterexample: the comparison-table rows do not tick on separate
schedules.  One firing of a table's single shared interval decrements every
row (here row 1's value changes from 7 even though this is the same tick that
advances row 0), and a missing display element for one row clears the shared
interval, cancelling the scheduling of every row of that table. -/
theorem table_rows_share_one_schedule :
    ¬ ((tableStep (fun _ => true) ⟨true, [5, 7]⟩).entries[1]? = some 7) ∧
    ¬ ((tableStep (fun i => i == 0) ⟨true, [5, 7]⟩).active = true) := by decide

/-- C7 (amended): the primary counter and the two comparison tables run on
three mutually independent schedules with separate state — stepping one never
changes another's state — and within a table each row keeps separate state:
its new value depends only on its own previous value.  But all rows of one
table share that table's single schedule. -/
theorem counters_frame_property (p : Bool) (q : ℕ → Bool) (s : CountdownSystem)
    (t : TableState) (i : ℕ) :
    (stepGlobal p s).top = s.top ∧ (stepGlobal p s).bottom = s.bottom ∧
    (stepTop q s).globalCount = s.globalCount ∧
    (stepTop q s).globalActive = s.globalActive ∧
    (stepTop q s).bottom = s.bottom ∧
    (stepBottom q s).globalCount = s.globalCount ∧
    (stepBottom q s).globalActive = s.globalActive ∧
    (stepBottom q s).top = s.top ∧
    (tableStep q t).entries[i]? =
      (if t.active then (t.entries[i]?).map tick else t.entries[i]?) := by
  refine ⟨?_, ?_, rfl, rfl, rfl, rfl, rfl, rfl, ?_⟩
  · unfold stepGlobal
    split <;> rfl
  · unfold stepGlobal
    split <;> rfl
  · rcases ht : t.active with _ | _ <;>
      simp [tableStep, ht, List.getElem?_map]

/-- C8: each comparison-country row recomputes the projection independently
with the same birth and now instants as the primary person and an effective
life expectancy equal to the country's base figure plus the same lifestyle
adjustment, clamped at 0.1 — exactly the primary pipeline applied to the
country's base figure. -/
theorem country_projection_matches_primary (birth now : DateTime) (base : ℚ)
    (adj : ℤ) :
    seconds_left_country birth now base adj =
      seconds_left birth now (effective_life_expectancy base adj) := rfl

/-- C6 counterexample: with base 0.5 years, raising the total lifestyle
adjustment strictly from −10 to −9 leaves the effective life expectancy at the
0.1-year clamp floor, so it is not strictly increased and the projected death
instant does not move. -/
theorem monotonicity_fails_at_clamp :
    (-10 : ℤ) < -9 ∧
    effective_life_expectancy (1 / 2) (-10) = effective_life_expectancy (1 / 2) (-9) ∧
    projected_death_epoch (DateTime.mk 2000 1 1 0) (effective_life_expectancy (1 / 2) (-10)) =
      projected_death_epoch (DateTime.mk 2000 1 1 0) (effective_life_expectancy (1 / 2) (-9)) := by
  have heq : effective_life_expectancy (1 / 2) (-10) = effective_life_expectancy (1 / 2) (-9) := by
    norm_num [effective_life_expectancy]
  exact ⟨by decide, heq, congrArg (projected_death_epoch (DateTime.mk 2000 1 1 0)) heq⟩

/-- C6 (amended): strictly increasing the total lifestyle adjustment strictly
increases the effective life expectancy and strictly moves the projected death
instant later, provided base plus the larger adjustment exceeds the 0.1-year
clamp floor — the minimal condition, since with both totals at or below the
floor both effective values clamp to 0.1 (the counterexample).  This covers
the mixed region where only the smaller total is clamped. -/
theorem monotone_adjustment_moves_death_later (base : ℚ) (a1 a2 : ℤ)
    (birth : DateTime) (h12 : a1 < a2) (hfloor : 1 / 10 < base + (a2 : ℚ)) :
    effective_life_expectancy base a1 < effective_life_expectancy base a2 ∧
    projected_death_epoch birth (effective_life_expectancy base a1) <
      projected_death_epoch birth (effective_life_expectancy base a2) := by
  have ha : (a1 : ℚ) < (a2 : ℚ) := by exact_mod_cast h12
  have he2 : effective_life_expectancy base a2 = base + (a2 : ℚ) := by
    unfold effective_life_expectancy
    dsimp only
    rw [if_neg (by linarith)]
  rcases lt_or_le (base + (a1 : ℚ)) (1 / 10) with hlow | hhigh
  · have he1 : effective_life_expectancy base a1 = 1 / 10 := by
      unfold effective_life_expectancy
      dsimp only
      rw [if_pos hlow]
    rw [he1, he2]
    exact ⟨hfloor, projected_death_lt_of_floor_lt birth _ hfloor⟩
  · have he1 : effective_life_expectancy base a1 = base + (a1 : ℚ) := by
      unfold effective_life_expectancy
      dsimp only
      rw [if_neg (not_lt.mpr hhigh)]
    rw [he1, he2]
    refine ⟨by linarith, ?_⟩
    have hsplit : base + (a2 : ℚ) = (base + (a1 : ℚ)) + ((a2 - a1 : ℤ) : ℚ) := by
      push_cast
      ring
    rw [hsplit]
    exact projected_death_add_int birth (base + (a1 : ℚ)) (a2 - a1) (by linarith)
      (by omega)

theorem monotone_adjustment_moves_death_later_witness :
    effective_life_expectancy (19 / 2) (-10) < effective_life_expectancy (19 / 2) (-9) ∧
    projected_death_epoch (DateTime.mk 2000 1 1 0)
        (effective_life_expectancy (19 / 2) (-10)) <
      projected_death_epoch (DateTime.mk 2000 1 1 0)
        (effective_life_expectancy (19 / 2) (-9)) :=
  monotone_adjustment_moves_death_later (19 / 2) (-10) (-9) (DateTime.mk 2000 1 1 0)
    (by decide) (by push_cast; norm_num)

/-- C9: for birth 1990-01-01T00:00:00 UTC, base life expectancy 80.0 years, no
lifestyle factors, and now 2020-01-01T00:00:00 UTC: secondsLived is
946,684,800, the effective life expectancy is 80.0, the projected death
instant is exactly 2070-01-01T00:00:00 UTC, and secondsRemaining is
1,577,923,200. -/
theorem scenario_one :
    seconds_lived (DateTime.mk 1990 1 1 0) (DateTime.mk 2020 1 1 0) = 946684800 ∧
    effective_life_expectancy 80 (life_expectancy_adjustment none none false) = 80 ∧
    addYears (DateTime.mk 1990 1 1 0) 80 = DateTime.mk 2070 1 1 0 ∧
    projected_death_epoch (DateTime.mk 1990 1 1 0)
        (effective_life_expectancy 80 (life_expectancy_adjustment none none false)) =
      toEpochSecs (DateTime.mk 2070 1 1 0) ∧
    seconds_left (DateTime.mk 1990 1 1 0) (DateTime.mk 2020 1 1 0)
        (effective_life_expectancy 80 (life_expectancy_adjustment none none false)) =
      1577923200 := by
  have hadj : life_expectancy_adjustment none none false = 0 := by decide
  have h90 : daysFromCivil 1990 1 1 = 726833 := by decide
  have h20 : daysFromCivil 2020 1 1 = 737790 := by decide
  have h70 : daysFromCivil 2070 1 1 = 756053 := by decide
  have heff : effective_life_expectancy 80 0 = 80 := by
    norm_num [effective_life_expectancy]
  have hay : addYears (DateTime.mk 1990 1 1 0) 80 = DateTime.mk 2070 1 1 0 := by decide
  have htr : truncRat (80 : ℚ) = 80 := by norm_num [truncRat]
  have hdeath : projected_death_epoch (DateTime.mk 1990 1 1 0) 80 =
      toEpochSecs (DateTime.mk 2070 1 1 0) := by
    simp only [projected_death_epoch, DAYS_IN_YEAR_AVG, htr, hay]
    norm_num
  refine ⟨?_, ?_, hay, ?_, ?_⟩
  · simp only [seconds_lived, toEpochSecs, h90, h20, truncRat]
    norm_num
  · rw [hadj]
    exact heff
  · rw [hadj, heff]
    exact hdeath
  · rw [hadj, heff]
    simp only [seconds_left, hdeath, toEpochSecs, h70, h20, truncRat]
    norm_num

/-- C10: for every base ≥ 0, every lifestyle selection, and every valid birth
instant, the projected death instant computed from the clamped effective life
expectancy lies strictly after the birth instant. -/
theorem death_strictly_after_birth (base : ℚ) (gym : Option GymTenure)
    (smoke : Option SmokeTenure) (cancer : Bool) (birth : DateTime)
    (hbase : 0 ≤ base) (hv : birth.Valid) :
    toEpochSecs birth <
      projected_death_epoch birth
        (effective_life_expectancy base (life_expectancy_adjustment gym smoke cancer)) := by
  set eff := effective_life_expectancy base (life_expectancy_adjustment gym smoke cancer)
    with heff
  have h01 : 1 / 10 ≤ eff := effective_life_expectancy_ge _ _
  have heffpos : (0 : ℚ) ≤ eff := by linarith
  have hfl0 : 0 ≤ ⌊eff⌋ := Int.floor_nonneg.mpr heffpos
  have hday : birth.day ≤ daysInMonth birth.year birth.month := hv.2.2.2.2.1
  simp only [projected_death_epoch, truncRat, DAYS_IN_YEAR_AVG]
  rw [if_neg (not_lt.mpr heffpos)]
  rcases eq_or_lt_of_le hfl0 with h0 | h1
  · rw [← h0, epoch_addYears_zero birth hday]
    have hflat : (1 / 10 : ℚ) * (1461 / 4) * 86400 ≤ (eff - ((0 : ℤ) : ℚ)) * (1461 / 4) * 86400 := by
      push_cast
      nlinarith
    nlinarith
  · have hep := epoch_addYears_lt birth 0 ⌊eff⌋ h1
    rw [zero_add, epoch_addYears_zero birth hday] at hep
    have hfr : (0 : ℚ) ≤ eff - (⌊eff⌋ : ℚ) := by linarith [Int.floor_le eff]
    have hflat : (0 : ℚ) ≤ (eff - (⌊eff⌋ : ℚ)) * (1461 / 4) * 86400 :=
      mul_nonneg (mul_nonneg hfr (by norm_num)) (by norm_num)
    linarith

theorem death_strictly_after_birth_witness :
    toEpochSecs (DateTime.mk 2000 1 1 0) <
      projected_death_epoch (DateTime.mk 2000 1 1 0)
        (effective_life_expectancy 0 (life_expectancy_adjustment none none false)) :=
  death_strictly_after_birth 0 none none false (DateTime.mk 2000 1 1 0)
    (le_refl 0) (by decide)

end OneLifeTime
